import Mathlib

/-!
# Verification of the drawer-labs core engine

Shallow embedding of the three framework-agnostic kernels of the
drawer-labs repository — `SnapPointCalculator`
(packages/core snap-points module), `SpringAnimation`
(packages/core/src/animation/spring-physics.ts) and `PointerTracker`
(packages/core/src/gestures/pointer-tracker.ts) — together with theorems
checking the natural-language specification against the code.

JavaScript numbers are modelled as rationals (`ℚ`); all arithmetic the
kernels perform is `+`, `-`, `*`, `/`, `abs`, `min`, `max` and
comparisons, which are exact on the inputs the claims consider.
-/

namespace DrawerLabs

/-! ## Snap point calculator data model -/

/-- Global viewport dimensions (`window.innerWidth` / `window.innerHeight`),
read by `parseSnapValue` when resolving `vw`/`vh` unit strings.  The class
reads them from the ambient `window` object; the embedding passes them
explicitly. -/
structure Viewport where
  innerWidth : ℚ
  innerHeight : ℚ
deriving DecidableEq

/-- The unit suffix of a snap-point descriptor string, as discriminated by
the `endsWith` chain in `parseSnapValue`: `px`, `%`, `vh`, `vw`,
or none of those (`other`). -/
inductive SnapUnit where
  | px
  | pct
  | vh
  | vw
  | other
deriving DecidableEq

/-- A well-formed numeric descriptor string such as `100px` or `25%`:
`parsed` is the number `Number.parseFloat` extracts from it and `unit` its
unit suffix. -/
structure SnapString where
  parsed : ℚ
  unit : SnapUnit
deriving DecidableEq

/-- The TypeScript union `number | string` taken by `parseSnapValue`. -/
inductive SnapValue where
  | num (n : ℚ)
  | str (s : SnapString)
deriving DecidableEq

/-- Test `typeof value` being number. -/
def SnapValue.isNum : SnapValue → Bool
  | .num _ => true
  | .str _ => false

/-- The TypeScript union `SnapPoint = number | string | { value; id }`. -/
inductive SnapPoint where
  | num (n : ℚ)
  | str (s : SnapString)
  | obj (value : SnapValue) (id : String)
deriving DecidableEq

/-- TS interface `SnapPointResolved`. -/
structure SnapPointResolved where
  id : String
  offset : ℚ
  relative : Bool
deriving DecidableEq

/-- The synthesized id snap-index given to unlabeled descriptors. -/
def snapId (index : ℕ) : String := "snap-" ++ toString index

/-- Method `SnapPointCalculator.parseSnapValue`, with the ambient viewport and the
the containerSize field of the instance passed explicitly. -/
def parseSnapValue (vp : Viewport) (containerSize : ℚ) : SnapValue → ℚ
  | .num n => n * containerSize
  | .str s =>
    match s.unit with
    | .px => s.parsed
    | .pct => s.parsed / 100 * containerSize
    | .vh => s.parsed / 100 * vp.innerHeight
    | .vw => s.parsed / 100 * vp.innerWidth
    | .other => s.parsed

/-- Method `SnapPointCalculator.resolveSnapPoints`: `points.map((point, index) => ...)`. -/
def resolveSnapPoints (vp : Viewport) (containerSize : ℚ)
    (points : List SnapPoint) : List SnapPointResolved :=
  points.enum.map fun p =>
    match p.2 with
    | .obj value id =>
      { id := id
        offset := parseSnapValue vp containerSize value
        relative := value.isNum }
    | .num n =>
      { id := snapId p.1
        offset := parseSnapValue vp containerSize (.num n)
        relative := true }
    | .str s =>
      { id := snapId p.1
        offset := parseSnapValue vp containerSize (.str s)
        relative := false }

/-- The mutable fields of a `SnapPointCalculator` instance. -/
structure SnapPointCalculator where
  resolvedPoints : List SnapPointResolved
  containerSize : ℚ
deriving DecidableEq

/-- Drawer axis (`SnapConfig.direction`); stored in the config but unused
by the arithmetic of the calculator. -/
inductive SnapDirection where
  | horizontal
  | vertical
deriving DecidableEq

/-- Structure `Omit SnapConfig activeIndex` as taken by `updateConfig`. -/
structure SnapConfigIn where
  points : List SnapPoint
  containerSize : ℚ
  direction : SnapDirection

/-- Method `SnapPointCalculator.updateConfig`. -/
def updateConfig (vp : Viewport) (_c : SnapPointCalculator)
    (config : SnapConfigIn) : SnapPointCalculator :=
  { containerSize := config.containerSize
    resolvedPoints := resolveSnapPoints vp config.containerSize config.points }

/-! ## Snap point queries -/

/-- Result record of `findNearestSnapPoint`; its index is produced by the
`forEach` counter and is therefore a natural number. -/
structure NearestResult where
  index : ℕ
  offset : ℚ
  id : String
deriving DecidableEq

/-- Result record of `findNextSnapPoint`; its index is computed by
JavaScript number arithmetic on the caller-supplied index, hence `ℚ`. -/
structure NextResult where
  index : ℚ
  offset : ℚ
  id : String
deriving DecidableEq

/-- JavaScript array subscript semantics for a numeric index: the element
is defined exactly when the index is an integer within `[0, length)`;
any negative, fractional or too-large index reads `undefined` (here
`none`). -/
def jsIndex {α : Type} (l : List α) (i : ℚ) : Option α :=
  if h : i.den = 1 ∧ 0 ≤ i.num ∧ i.num.toNat < l.length then
    some (l.get ⟨i.num.toNat, h.2.2⟩)
  else none

/-- The `forEach` loop of `findNearestSnapPoint`: walks the list keeping
`minDistance` (initially `Number.POSITIVE_INFINITY`, modelled by `⊤` of
`WithTop ℚ`) and `nearestIndex` (initially 0), updating both on a strict
`distance < minDistance`. -/
def nearestScan (currentOffset : ℚ) :
    List SnapPointResolved → ℕ → WithTop ℚ → ℕ → WithTop ℚ × ℕ
  | [], _, minDistance, nearestIndex => (minDistance, nearestIndex)
  | point :: rest, index, minDistance, nearestIndex =>
    let distance : ℚ := |point.offset - currentOffset|
    if (distance : WithTop ℚ) < minDistance then
      nearestScan currentOffset rest (index + 1) (distance : WithTop ℚ) index
    else
      nearestScan currentOffset rest (index + 1) minDistance nearestIndex

/-- Method `SnapPointCalculator.findNearestSnapPoint`. -/
def findNearestSnapPoint (c : SnapPointCalculator) (currentOffset : ℚ) :
    NearestResult :=
  let r := nearestScan currentOffset c.resolvedPoints 0 ⊤ 0
  match c.resolvedPoints.get? r.2 with
  | none => { index := 0, offset := 0, id := "snap-0" }
  | some nearest => { index := r.2, offset := nearest.offset, id := nearest.id }

/-- The `nextIndex` computation inside `findNextSnapPoint`:
`Math.min(currentIndex + 1, length - 1)` when moving forward
(`velocity > 0`), `Math.max(currentIndex - 1, 0)` otherwise. -/
def nextIndex (c : SnapPointCalculator) (currentIndex velocity : ℚ) : ℚ :=
  if velocity > 0 then
    min (currentIndex + 1) ((c.resolvedPoints.length : ℚ) - 1)
  else
    max (currentIndex - 1) 0

/-- Method `SnapPointCalculator.findNextSnapPoint`. -/
def findNextSnapPoint (c : SnapPointCalculator) (currentIndex velocity : ℚ)
    (velocityThreshold : ℚ := 1 / 2) : Option NextResult :=
  let hasSignificantVelocity := |velocity| > velocityThreshold
  if ¬ hasSignificantVelocity then none
  else
    let next := nextIndex c currentIndex velocity
    if next = currentIndex then none
    else
      match jsIndex c.resolvedPoints next with
      | none => none
      | some p => some { index := next, offset := p.offset, id := p.id }

/-- Method `SnapPointCalculator.getSnapPoint`:
`this.resolvedPoints[index] ?? null` with JS subscript semantics. -/
def getSnapPoint (c : SnapPointCalculator) (index : ℚ) :
    Option SnapPointResolved :=
  jsIndex c.resolvedPoints index

/-- Method `SnapPointCalculator.getAllSnapPoints` (returns a copy; copying
is the identity on immutable lists). -/
def getAllSnapPoints (c : SnapPointCalculator) : List SnapPointResolved :=
  c.resolvedPoints

/-- Method `SnapPointCalculator.getSnapPointCount`. -/
def getSnapPointCount (c : SnapPointCalculator) : ℕ :=
  c.resolvedPoints.length

/-! ## Spring animation (spring-physics.ts)

The class drives itself through `requestAnimationFrame`; the embedding
makes the frame timestamps explicit arguments.  The opaque handle returned
by `requestAnimationFrame` is modelled as `Option Unit` (`some ()` when a
frame is scheduled, `none` after `cancelAnimationFrame` / initially). -/

/-- TS interface `SpringConfig`. -/
structure SpringConfig where
  stiffness : ℚ
  damping : ℚ
  mass : ℚ
  precision : ℚ
deriving DecidableEq

/-- Preset `SPRING_PRESETS.gentle`. -/
def gentle : SpringConfig := { stiffness := 120, damping := 14, mass := 1, precision := 1 / 100 }

/-- Preset `SPRING_PRESETS.wobbly`. -/
def wobbly : SpringConfig := { stiffness := 180, damping := 12, mass := 1, precision := 1 / 100 }

/-- Preset `SPRING_PRESETS.stiff`. -/
def stiff : SpringConfig := { stiffness := 210, damping := 20, mass := 1, precision := 1 / 100 }

/-- Preset `SPRING_PRESETS.slow`. -/
def slow : SpringConfig := { stiffness := 280, damping := 60, mass := 1, precision := 1 / 100 }

/-- Preset `SPRING_PRESETS.molasses`. -/
def molasses : SpringConfig := { stiffness := 280, damping := 120, mass := 1, precision := 1 / 100 }

/-- The mutable fields of a `SpringAnimation` instance. -/
structure SpringState where
  currentValue : ℚ
  currentVelocity : ℚ
  targetValue : ℚ
  config : SpringConfig
  rafId : Option Unit
  lastTime : ℚ
  isAnimating : Bool
deriving DecidableEq

/-- The `SpringAnimation` constructor (defaults: initial value 0, config
`SPRING_PRESETS.gentle`). -/
def mkSpring (initialValue : ℚ := 0) (config : SpringConfig := gentle) : SpringState :=
  { currentValue := initialValue
    currentVelocity := 0
    targetValue := initialValue
    config := config
    rafId := none
    lastTime := 0
    isAnimating := false }

/-- Method `SpringAnimation.setTarget`; `now` is the `performance.now()`
timestamp read by the private `start` when the loop is not yet running. -/
def setTarget (s : SpringState) (target : ℚ) (velocity : ℚ := 0) (now : ℚ := 0) :
    SpringState :=
  let s1 := { s with targetValue := target, currentVelocity := velocity }
  if s1.isAnimating then s1
  else { s1 with isAnimating := true, lastTime := now, rafId := some () }

/-- Callbacks fired by a single tick: the `onUpdate` payload (new value and
velocity) when emitted, and whether `onComplete` fired. -/
structure TickEvents where
  update : Option (ℚ × ℚ)
  complete : Bool
deriving DecidableEq

/-- The clamped integration step of `tick`:
`Math.min(currentTime - this.lastTime, 64) / 1000`. -/
def tickDt (s : SpringState) (currentTime : ℚ) : ℚ :=
  min (currentTime - s.lastTime) 64 / 1000

/-- The velocity after the explicit-Euler update of `tick`:
`currentVelocity + acceleration * deltaTime` with
`acceleration = (springForce + dampingForce) / mass`,
`springForce = -stiffness * (currentValue - targetValue)` and
`dampingForce = -damping * currentVelocity`. -/
def eulerVelocity (s : SpringState) (currentTime : ℚ) : ℚ :=
  s.currentVelocity +
    (-s.config.stiffness * (s.currentValue - s.targetValue) +
        -s.config.damping * s.currentVelocity) / s.config.mass *
      tickDt s currentTime

/-- The value after the explicit-Euler update of `tick`:
`currentValue + (updated velocity) * deltaTime`. -/
def eulerValue (s : SpringState) (currentTime : ℚ) : ℚ :=
  s.currentValue + eulerVelocity s currentTime * tickDt s currentTime

/-- Method `SpringAnimation.tick` at frame timestamp `currentTime`: runs
the physics step, then either snaps to the target and completes (when both
`isAtTarget` and `isStill` hold) or stores the integrated state, emits
`onUpdate` and schedules the next frame. -/
def tick (s : SpringState) (currentTime : ℚ) : SpringState × TickEvents :=
  let newVelocity := eulerVelocity s currentTime
  let newValue := eulerValue s currentTime
  let isAtTarget := |newValue - s.targetValue| < s.config.precision
  let isStill := |newVelocity| < s.config.precision
  if isAtTarget ∧ isStill then
    ({ s with currentValue := s.targetValue
              currentVelocity := 0
              lastTime := currentTime
              isAnimating := false },
     { update := none, complete := true })
  else
    ({ s with currentValue := newValue
              currentVelocity := newVelocity
              lastTime := currentTime
              rafId := some () },
     { update := some (newValue, newVelocity), complete := false })

/-- Method `SpringAnimation.stop`: cancels the pending frame and clears the
running flag, touching nothing else. -/
def stop (s : SpringState) : SpringState :=
  { s with rafId := none, isAnimating := false }

/-- Method `SpringAnimation.getValue`. -/
def getValue (s : SpringState) : ℚ := s.currentValue

/-- Method `SpringAnimation.getVelocity`. -/
def getVelocity (s : SpringState) : ℚ := s.currentVelocity

/-- The animation-frame loop: delivers the listed frame timestamps one by
one, each tick running only while the instance is animating (a completed
or stopped instance has no scheduled frame, so remaining timestamps never
reach it).  Returns the final state and the events of the ticks that ran. -/
def runTicks (s : SpringState) : List ℚ → SpringState × List TickEvents
  | [] => (s, [])
  | t :: ts =>
    if s.isAnimating then
      let r := tick s t
      let rest := runTicks r.1 ts
      (rest.1, r.2 :: rest.2)
    else (s, [])

/-! ## Pointer tracker (pointer-tracker.ts) -/

/-- TS interface `PointerEvent` (the fields the tracker reads). -/
structure PEvent where
  clientX : ℚ
  clientY : ℚ
  timeStamp : ℚ
  pointerId : ℤ
deriving DecidableEq

/-- The four coarse gesture directions; `null` is `Option.none`. -/
inductive GestureDirection where
  | up
  | down
  | left
  | right
deriving DecidableEq

/-- TS interface `GestureState`. -/
structure GestureState where
  isDragging : Bool
  startX : ℚ
  startY : ℚ
  currentX : ℚ
  currentY : ℚ
  deltaX : ℚ
  deltaY : ℚ
  velocityX : ℚ
  velocityY : ℚ
  direction : Option GestureDirection
  timestamp : ℚ
deriving DecidableEq

/-- A sample of the velocity history: `{ x, y, time }`. -/
structure Sample where
  x : ℚ
  y : ℚ
  time : ℚ
deriving DecidableEq

/-- Constant `maxHistoryLength` of `PointerTracker`. -/
def maxHistoryLength : ℕ := 5

/-- The mutable fields of a `PointerTracker` instance. -/
structure PointerTracker where
  state : GestureState
  history : List Sample
deriving DecidableEq

/-- Method `PointerTracker.getInitialState`. -/
def getInitialState : GestureState :=
  { isDragging := false
    startX := 0
    startY := 0
    currentX := 0
    currentY := 0
    deltaX := 0
    deltaY := 0
    velocityX := 0
    velocityY := 0
    direction := none
    timestamp := 0 }

/-- The `PointerTracker` constructor. -/
def mkTracker : PointerTracker :=
  { state := getInitialState, history := [] }

/-- Method `PointerTracker.start`. -/
def start (_t : PointerTracker) (event : PEvent) : PointerTracker :=
  { state :=
      { getInitialState with
          isDragging := true
          startX := event.clientX
          startY := event.clientY
          currentX := event.clientX
          currentY := event.clientY
          timestamp := event.timeStamp }
    history := [{ x := event.clientX, y := event.clientY, time := event.timeStamp }] }

/-- The history update performed by `move`: push the new sample, then
`shift()` the oldest away when the length exceeds `maxHistoryLength`. -/
def pushHistory (history : List Sample) (s : Sample) : List Sample :=
  let h := history ++ [s]
  if h.length > maxHistoryLength then h.tail else h

/-- Method `PointerTracker.calculateVelocity`, computed from the history:
slope between the oldest and newest retained samples, 0 when fewer than 2
samples exist or their time span is 0. -/
def calculateVelocity (history : List Sample) : ℚ × ℚ :=
  if history.length < 2 then (0, 0)
  else
    match history.get? (history.length - 1), history.get? 0 with
    | some latest, some oldest =>
      let timeDelta := latest.time - oldest.time
      if timeDelta = 0 then (0, 0)
      else ((latest.x - oldest.x) / timeDelta, (latest.y - oldest.y) / timeDelta)
    | _, _ => (0, 0)

/-- Method `PointerTracker.getDirection` with its fixed 5-unit threshold. -/
def getDirection (deltaX deltaY : ℚ) : Option GestureDirection :=
  if |deltaX| < 5 ∧ |deltaY| < 5 then none
  else if |deltaX| > |deltaY| then
    some (if deltaX > 0 then .right else .left)
  else
    some (if deltaY > 0 then .down else .up)

/-- Method `PointerTracker.move`. -/
def move (t : PointerTracker) (event : PEvent) : PointerTracker :=
  if t.state.isDragging = false then t
  else
    let deltaX := event.clientX - t.state.startX
    let deltaY := event.clientY - t.state.startY
    let history := pushHistory t.history
      { x := event.clientX, y := event.clientY, time := event.timeStamp }
    let v := calculateVelocity history
    let direction := getDirection deltaX deltaY
    { state :=
        { t.state with
            currentX := event.clientX
            currentY := event.clientY
            deltaX := deltaX
            deltaY := deltaY
            velocityX := v.1
            velocityY := v.2
            direction := direction
            timestamp := event.timeStamp }
      history := history }

/-- Method `PointerTracker.end`: one final `move`, then dragging is
cleared (`end` is a Lean keyword, hence the name). -/
def endGesture (t : PointerTracker) (event : PEvent) : PointerTracker :=
  let final := move t event
  { final with state := { final.state with isDragging := false } }

/-- Method `PointerTracker.reset`. -/
def reset (_t : PointerTracker) : PointerTracker :=
  { state := getInitialState, history := [] }

/-- Method `PointerTracker.getState` (returns a copy). -/
def getState (t : PointerTracker) : GestureState := t.state

/-! ## Theorems -/

/-- C9: `SpringAnimation.stop` leaves the current value and current
velocity unchanged — `getValue` and `getVelocity` return the same results
before and after `stop`; `stop` only clears the pending frame handle and
the running flag. -/
theorem C9_stop_preserves_value_and_velocity (s : SpringState) :
    getValue (stop s) = getValue s ∧ getVelocity (stop s) = getVelocity s ∧
    (stop s).isAnimating = false ∧ (stop s).rafId = none ∧
    (stop s).targetValue = s.targetValue ∧ (stop s).config = s.config :=
  ⟨rfl, rfl, rfl, rfl, rfl, rfl⟩

/-- C6: the direction reported for a delta pair is `none` whenever both
absolute deltas are below the fixed 5-unit threshold; otherwise it is the
axis of the strictly larger absolute delta, signed by the sign of that
delta. -/
theorem C6_direction_of_deltas (deltaX deltaY : ℚ) :
    (|deltaX| < 5 ∧ |deltaY| < 5 → getDirection deltaX deltaY = none) ∧
    (¬(|deltaX| < 5 ∧ |deltaY| < 5) →
      (|deltaX| > |deltaY| →
        getDirection deltaX deltaY =
          some (if deltaX > 0 then .right else .left)) ∧
      (|deltaY| > |deltaX| →
        getDirection deltaX deltaY =
          some (if deltaY > 0 then .down else .up))) := by
  refine ⟨fun h => ?_, fun h => ⟨fun hx => ?_, fun hy => ?_⟩⟩
  · simp [getDirection, h]
  · simp [getDirection, h, hx]
  · have hnx : ¬ |deltaX| > |deltaY| := not_lt.mpr (le_of_lt hy)
    simp [getDirection, h, hnx]

/-- Witness for C6 at concrete deltas (10, 3) and (0, -7). -/
theorem C6_direction_of_deltas_witness :
    getDirection 10 3 = some GestureDirection.right ∧
    getDirection 0 (-7) = some GestureDirection.up := by
  constructor
  · have h := ((C6_direction_of_deltas 10 3).2 (by norm_num)).1 (by norm_num)
    norm_num at h
    exact h
  · have h := ((C6_direction_of_deltas 0 (-7)).2 (by norm_num)).2 (by norm_num)
    norm_num at h
    exact h

/-- C5: the velocity pair computed from the sample history (and stored by
`move`/`end`) is exactly (0, 0) when fewer than 2 samples are retained or
the time span between oldest and newest retained samples is 0; otherwise
it is the coordinate difference between newest and oldest divided by that
time span. -/
theorem C5_velocity_from_history (hist : List Sample) :
    (hist.length < 2 → calculateVelocity hist = (0, 0)) ∧
    (∀ oldest latest, hist.head? = some oldest → hist.getLast? = some latest →
      (latest.time - oldest.time = 0 → calculateVelocity hist = (0, 0)) ∧
      (2 ≤ hist.length → latest.time - oldest.time ≠ 0 →
        calculateVelocity hist =
          ((latest.x - oldest.x) / (latest.time - oldest.time),
           (latest.y - oldest.y) / (latest.time - oldest.time)))) ∧
    (∀ t event, t.state.isDragging = true →
      ((move t event).state.velocityX, (move t event).state.velocityY) =
        calculateVelocity (pushHistory t.history
          { x := event.clientX, y := event.clientY, time := event.timeStamp })) := by
  refine ⟨fun h => ?_, fun oldest latest h0 hL => ?_, fun t event h => ?_⟩
  · simp [calculateVelocity, h]
  · have hget0 : hist[(0 : ℕ)]? = some oldest := by
      rw [← List.get?_eq_getElem?, List.get?_zero]; exact h0
    have hgetL : hist[hist.length - 1]? = some latest := by
      rw [← List.get?_eq_getElem?, ← List.getLast?_eq_get?]; exact hL
    constructor
    · intro hdt
      by_cases hlen : hist.length < 2
      · simp [calculateVelocity, hlen]
      · simp [calculateVelocity, hlen, hget0, hgetL, hdt]
    · intro hlen hdt
      have hlen2 : ¬ hist.length < 2 := not_lt.mpr hlen
      simp [calculateVelocity, hlen2, hget0, hgetL, hdt]
  · simp [move, h]

/-- Witness for C5 on a two-sample history and on a concrete `move`. -/
theorem C5_velocity_from_history_witness :
    calculateVelocity
      [{ x := 0, y := 0, time := 0 }, { x := 10, y := 5, time := 2 }] =
      (5, 5 / 2) := by
  have h := ((C5_velocity_from_history
      [{ x := 0, y := 0, time := 0 }, { x := 10, y := 5, time := 2 }]).2.1
      { x := 0, y := 0, time := 0 } { x := 10, y := 5, time := 2 }
      rfl rfl).2 (by norm_num) (by norm_num)
  norm_num at h
  exact h

/-- The guard condition of `jsIndex` restated over the rational index
itself: the index is an integer, non-negative, and below the length. -/
lemma jsIndex_cond_iff (len : ℕ) (i : ℚ) :
    (i.den = 1 ∧ 0 ≤ i.num ∧ i.num.toNat < len) ↔
      (i.den = 1 ∧ 0 ≤ i ∧ i < (len : ℚ)) := by
  constructor
  · rintro ⟨hden, h0, hlt⟩
    have hi : (i.num : ℚ) = i := (Rat.den_eq_one_iff i).mp hden
    have h0q : (0 : ℚ) ≤ i := Rat.num_nonneg.mp h0
    refine ⟨hden, h0q, ?_⟩
    have hz : i.num < (len : ℤ) := (Int.toNat_lt h0).mp hlt
    calc i = (i.num : ℚ) := hi.symm
    _ < ((len : ℤ) : ℚ) := by exact_mod_cast hz
    _ = (len : ℚ) := by norm_cast
  · rintro ⟨hden, h0, hlt⟩
    have hi : (i.num : ℚ) = i := (Rat.den_eq_one_iff i).mp hden
    have h0z : 0 ≤ i.num := Rat.num_nonneg.mpr h0
    refine ⟨hden, h0z, ?_⟩
    rw [Int.toNat_lt h0z]
    have : (i.num : ℚ) < ((len : ℤ) : ℚ) := by
      rw [hi]; exact_mod_cast hlt
    exact_mod_cast this

/-- C10: `getSnapPoint index` returns a non-null resolved point exactly
when the index is an integer within `[0, getSnapPointCount)`; every other
index — negative, fractional or too large — yields `null` rather than
failing. -/
theorem C10_getSnapPoint_in_range (c : SnapPointCalculator) (i : ℚ) :
    (getSnapPoint c i ≠ none ↔
      i.den = 1 ∧ 0 ≤ i ∧ i < (getSnapPointCount c : ℚ)) ∧
    (i < 0 ∨ (getSnapPointCount c : ℚ) ≤ i ∨ i.den ≠ 1 →
      getSnapPoint c i = none) := by
  have hiff := jsIndex_cond_iff c.resolvedPoints.length i
  constructor
  · unfold getSnapPoint jsIndex getSnapPointCount
    split
    case isTrue hcond =>
      simpa using hiff.mp hcond
    case isFalse hcond =>
      simp only [ne_eq, not_true_eq_false, false_iff]
      exact fun hr => hcond (hiff.mpr (by simpa [getSnapPointCount] using hr))
  · intro h
    unfold getSnapPoint jsIndex
    rw [dif_neg]
    intro hcond
    have hr := hiff.mp hcond
    rcases h with h | h | h
    · exact absurd hr.2.1 (not_le.mpr h)
    · exact absurd hr.2.2 (not_lt.mpr (by simpa [getSnapPointCount] using h))
    · exact h hr.1

/-- Witness for C10 at a concrete calculator and indices 1, -1 and 1/2. -/
theorem C10_getSnapPoint_in_range_witness :
    getSnapPoint
      { resolvedPoints := [{ id := "snap-0", offset := 0, relative := true }],
        containerSize := 400 } (-1) = none ∧
    getSnapPoint
      { resolvedPoints := [{ id := "snap-0", offset := 0, relative := true }],
        containerSize := 400 } (1 / 2) = none := by
  constructor
  · exact (C10_getSnapPoint_in_range _ (-1)).2 (Or.inl (by norm_num))
  · exact (C10_getSnapPoint_in_range _ (1 / 2)).2 (Or.inr (Or.inr (by norm_num)))

/-- Pointwise description of `resolveSnapPoints`: the element at position
`i` is the resolution of the descriptor at position `i`. -/
lemma resolveSnapPoints_get? (vp : Viewport) (cs : ℚ) (points : List SnapPoint)
    (i : ℕ) :
    (resolveSnapPoints vp cs points).get? i =
      (points.get? i).map fun p =>
        match p with
        | .obj value id =>
          { id := id, offset := parseSnapValue vp cs value,
            relative := value.isNum }
        | .num n =>
          { id := snapId i, offset := parseSnapValue vp cs (.num n),
            relative := true }
        | .str s =>
          { id := snapId i, offset := parseSnapValue vp cs (.str s),
            relative := false } := by
  unfold resolveSnapPoints
  rw [List.get?_map, List.get?_enum]
  cases h : points.get? i with
  | none => rfl
  | some p => cases p <;> rfl

/-- C1: `updateConfig` resolves each descriptor in order — a bare number
`n` maps to offset `n * containerSize` with `relative := true`; a `px`
string to its parsed number regardless of container size; a `%` string to
`parsed / 100 * containerSize`; `vh`/`vw` strings to `parsed / 100` times
the global viewport height/width; any other string to its unitless parse;
an object keeps its explicit id and resolves its value by the same rules;
every non-object descriptor at position `i` gets the synthesized id
`snap-i`.  Concretely, `[0, 0.5, 1]` over containerSize 400 resolves to
offsets `[0, 200, 400]`, `[25%, 75%]` over 400 to `[100, 300]`, and
`[100px, 200px]` to `[100, 200]` for every containerSize. -/
theorem C1_updateConfig_resolves_descriptors (vp : Viewport) (cs : ℚ)
    (points : List SnapPoint) :
    (∀ c dir, (updateConfig vp c { points := points, containerSize := cs, direction := dir }).resolvedPoints = resolveSnapPoints vp cs points) ∧
    (resolveSnapPoints vp cs points).length = points.length ∧
    (∀ i n, points.get? i = some (.num n) →
      (resolveSnapPoints vp cs points).get? i =
        some { id := snapId i, offset := n * cs, relative := true }) ∧
    (∀ i q, points.get? i = some (.str { parsed := q, unit := .px }) →
      (resolveSnapPoints vp cs points).get? i =
        some { id := snapId i, offset := q, relative := false }) ∧
    (∀ i q, points.get? i = some (.str { parsed := q, unit := .pct }) →
      (resolveSnapPoints vp cs points).get? i =
        some { id := snapId i, offset := q / 100 * cs, relative := false }) ∧
    (∀ i q, points.get? i = some (.str { parsed := q, unit := .vh }) →
      (resolveSnapPoints vp cs points).get? i =
        some { id := snapId i, offset := q / 100 * vp.innerHeight, relative := false }) ∧
    (∀ i q, points.get? i = some (.str { parsed := q, unit := .vw }) →
      (resolveSnapPoints vp cs points).get? i =
        some { id := snapId i, offset := q / 100 * vp.innerWidth, relative := false }) ∧
    (∀ i q, points.get? i = some (.str { parsed := q, unit := .other }) →
      (resolveSnapPoints vp cs points).get? i =
        some { id := snapId i, offset := q, relative := false }) ∧
    (∀ i v id, points.get? i = some (.obj v id) →
      (resolveSnapPoints vp cs points).get? i =
        some { id := id, offset := parseSnapValue vp cs v, relative := v.isNum }) ∧
    (resolveSnapPoints vp 400 [.num 0, .num (1 / 2), .num 1]).map
      SnapPointResolved.offset = [0, 200, 400] ∧
    (resolveSnapPoints vp 400
      [.str { parsed := 25, unit := .pct }, .str { parsed := 75, unit := .pct }]).map
      SnapPointResolved.offset = [100, 300] ∧
    (resolveSnapPoints vp cs
      [.str { parsed := 100, unit := .px }, .str { parsed := 200, unit := .px }]).map
      SnapPointResolved.offset = [100, 200] := by
  refine ⟨fun c dir => rfl, ?_, ?_, ?_, ?_, ?_, ?_, ?_, ?_, ?_, ?_, ?_⟩
  · simp [resolveSnapPoints]
  · intro i n h; rw [resolveSnapPoints_get?, h]; rfl
  · intro i q h; rw [resolveSnapPoints_get?, h]; rfl
  · intro i q h; rw [resolveSnapPoints_get?, h]; rfl
  · intro i q h; rw [resolveSnapPoints_get?, h]; rfl
  · intro i q h; rw [resolveSnapPoints_get?, h]; rfl
  · intro i q h; rw [resolveSnapPoints_get?, h]; rfl
  · intro i v id h; rw [resolveSnapPoints_get?, h]; rfl
  · norm_num [resolveSnapPoints, parseSnapValue, List.enum]
  · norm_num [resolveSnapPoints, parseSnapValue, List.enum]
  · norm_num [resolveSnapPoints, parseSnapValue, List.enum]

/-- Witness for C1 on the descriptor list `[0.5, {value: 30px, id: half}]`
over containerSize 400. -/
theorem C1_updateConfig_resolves_descriptors_witness :
    (resolveSnapPoints { innerWidth := 800, innerHeight := 600 } 400
        [.num (1 / 2), .obj (.str { parsed := 30, unit := .px }) "half"]).get? 0 =
      some { id := snapId 0, offset := 1 / 2 * 400, relative := true } ∧
    (resolveSnapPoints { innerWidth := 800, innerHeight := 600 } 400
        [.num (1 / 2), .obj (.str { parsed := 30, unit := .px }) "half"]).get? 1 =
      some { id := "half",
             offset := parseSnapValue { innerWidth := 800, innerHeight := 600 } 400
               (.str { parsed := 30, unit := .px }),
             relative := SnapValue.isNum (.str { parsed := 30, unit := .px }) } := by
  constructor
  · exact (C1_updateConfig_resolves_descriptors
      { innerWidth := 800, innerHeight := 600 } 400
      [.num (1 / 2), .obj (.str { parsed := 30, unit := .px }) "half"]).2.2.1 0 (1 / 2) rfl
  · exact (C1_updateConfig_resolves_descriptors
      { innerWidth := 800, innerHeight := 600 } 400
      [.num (1 / 2), .obj (.str { parsed := 30, unit := .px }) "half"]).2.2.2.2.2.2.2.2.1 1
      (.str { parsed := 30, unit := .px }) "half" rfl

/-- Unfolding equation for one step of the `findNearestSnapPoint` loop. -/
lemma nearestScan_cons (off : ℚ) (p : SnapPointResolved)
    (rest : List SnapPointResolved) (idx : ℕ) (minD : WithTop ℚ) (best : ℕ) :
    nearestScan off (p :: rest) idx minD best =
      if ((|p.offset - off| : ℚ) : WithTop ℚ) < minD then
        nearestScan off rest (idx + 1) ((|p.offset - off| : ℚ) : WithTop ℚ) idx
      else nearestScan off rest (idx + 1) minD best := rfl

/-- The running minimum of the `findNearestSnapPoint` loop never exceeds
its starting value nor any distance in the remaining list. -/
lemma nearestScan_le (off : ℚ) (suf : List SnapPointResolved) :
    ∀ (idx : ℕ) (minD : WithTop ℚ) (best : ℕ),
      (nearestScan off suf idx minD best).1 ≤ minD ∧
      ∀ k (hk : k < suf.length),
        (nearestScan off suf idx minD best).1 ≤
          ((|(suf.get ⟨k, hk⟩).offset - off| : ℚ) : WithTop ℚ) := by
  induction suf with
  | nil =>
    intro idx minD best
    exact ⟨le_refl _, fun k hk => absurd hk (Nat.not_lt_zero k)⟩
  | cons p rest ih =>
    intro idx minD best
    rw [nearestScan_cons]
    by_cases hlt : ((|p.offset - off| : ℚ) : WithTop ℚ) < minD
    · rw [if_pos hlt]
      obtain ⟨h1, h2⟩ := ih (idx + 1) ((|p.offset - off| : ℚ) : WithTop ℚ) idx
      refine ⟨le_trans h1 (le_of_lt hlt), fun k hk => ?_⟩
      cases k with
      | zero => exact h1
      | succ k => exact h2 k (Nat.lt_of_succ_lt_succ hk)
    · rw [if_neg hlt]
      obtain ⟨h1, h2⟩ := ih (idx + 1) minD best
      refine ⟨h1, fun k hk => ?_⟩
      cases k with
      | zero => exact le_trans h1 (not_lt.mp hlt)
      | succ k => exact h2 k (Nat.lt_of_succ_lt_succ hk)

/-- Case analysis on the `findNearestSnapPoint` loop: either nothing beat
the starting minimum and the accumulator is returned unchanged, or the
result is the distance and absolute position of some list entry that is
strictly smaller than the starting minimum and than every entry strictly
before it. -/
lemma nearestScan_cases (off : ℚ) (suf : List SnapPointResolved) :
    ∀ (idx : ℕ) (minD : WithTop ℚ) (best : ℕ),
      (nearestScan off suf idx minD best = (minD, best) ∧
        ∀ k (hk : k < suf.length),
          minD ≤ ((|(suf.get ⟨k, hk⟩).offset - off| : ℚ) : WithTop ℚ)) ∨
      (∃ k, ∃ hk : k < suf.length,
        (nearestScan off suf idx minD best).1 =
          ((|(suf.get ⟨k, hk⟩).offset - off| : ℚ) : WithTop ℚ) ∧
        (nearestScan off suf idx minD best).2 = idx + k ∧
        (nearestScan off suf idx minD best).1 < minD ∧
        ∀ j (hj : j < k),
          (nearestScan off suf idx minD best).1 <
            ((|(suf.get ⟨j, lt_trans hj hk⟩).offset - off| : ℚ) : WithTop ℚ)) := by
  induction suf with
  | nil =>
    intro idx minD best
    exact Or.inl ⟨rfl, fun k hk => absurd hk (Nat.not_lt_zero k)⟩
  | cons p rest ih =>
    intro idx minD best
    rw [nearestScan_cons]
    by_cases hlt : ((|p.offset - off| : ℚ) : WithTop ℚ) < minD
    · rw [if_pos hlt]
      rcases ih (idx + 1) ((|p.offset - off| : ℚ) : WithTop ℚ) idx with
        ⟨heq, hall⟩ | ⟨k, hk, h1, h2, h3, h4⟩
      · refine Or.inr ⟨0, Nat.succ_pos _, ?_, ?_, ?_, ?_⟩
        · rw [heq]; rfl
        · rw [heq]; rfl
        · rw [heq]; exact hlt
        · intro j hj; exact absurd hj (Nat.not_lt_zero j)
      · refine Or.inr ⟨k + 1, Nat.succ_lt_succ hk, h1, by omega, lt_trans h3 hlt, ?_⟩
        intro j hj
        cases j with
        | zero => exact h3
        | succ j => exact h4 j (Nat.lt_of_succ_lt_succ hj)
    · rw [if_neg hlt]
      rcases ih (idx + 1) minD best with
        ⟨heq, hall⟩ | ⟨k, hk, h1, h2, h3, h4⟩
      · refine Or.inl ⟨heq, fun k hk => ?_⟩
        cases k with
        | zero => exact not_lt.mp hlt
        | succ k => exact hall k (Nat.lt_of_succ_lt_succ hk)
      · refine Or.inr ⟨k + 1, Nat.succ_lt_succ hk, h1, by omega, h3, ?_⟩
        intro j hj
        cases j with
        | zero => exact lt_of_lt_of_le h3 (not_lt.mp hlt)
        | succ j => exact h4 j (Nat.lt_of_succ_lt_succ hj)

/-- C3: on a non-empty resolved point list `findNearestSnapPoint` returns
the index, offset and id of a point minimizing the absolute distance to
the query offset, with ties going to the lowest such index; on the empty
list it returns the fallback `index 0 / offset 0 / id snap-0` rather than
failing.  Concretely, over offsets `[0, 200, 400]` the query 180 returns
index 1. -/
theorem C3_findNearestSnapPoint_is_least_argmin (c : SnapPointCalculator)
    (off : ℚ) :
    (c.resolvedPoints = [] →
      findNearestSnapPoint c off = { index := 0, offset := 0, id := "snap-0" }) ∧
    (c.resolvedPoints ≠ [] →
      ∃ h : (findNearestSnapPoint c off).index < c.resolvedPoints.length,
        (c.resolvedPoints.get ⟨(findNearestSnapPoint c off).index, h⟩).offset =
            (findNearestSnapPoint c off).offset ∧
        (c.resolvedPoints.get ⟨(findNearestSnapPoint c off).index, h⟩).id =
            (findNearestSnapPoint c off).id ∧
        (∀ j (hj : j < c.resolvedPoints.length),
          |(c.resolvedPoints.get ⟨(findNearestSnapPoint c off).index, h⟩).offset - off| ≤
            |(c.resolvedPoints.get ⟨j, hj⟩).offset - off|) ∧
        (∀ j (hj : j < c.resolvedPoints.length),
          j < (findNearestSnapPoint c off).index →
          |(c.resolvedPoints.get ⟨(findNearestSnapPoint c off).index, h⟩).offset - off| <
            |(c.resolvedPoints.get ⟨j, hj⟩).offset - off|)) ∧
    (findNearestSnapPoint
        { resolvedPoints :=
            [{ id := "snap-0", offset := 0, relative := true },
             { id := "snap-1", offset := 200, relative := true },
             { id := "snap-2", offset := 400, relative := true }],
          containerSize := 400 } 180).index = 1 := by
  refine ⟨fun hnil => ?_, fun hne => ?_, ?_⟩
  · simp [findNearestSnapPoint, hnil, nearestScan]
  · rcases nearestScan_cases off c.resolvedPoints 0 ⊤ 0 with
      ⟨heq, hall⟩ | ⟨k, hk, h1, h2, h3, h4⟩
    · exfalso
      have h0 : 0 < c.resolvedPoints.length := List.length_pos.mpr hne
      exact not_le.mpr (WithTop.coe_lt_top _) (hall 0 h0)
    · have hr2 : (nearestScan off c.resolvedPoints 0 ⊤ 0).2 = k := by
        rw [h2]; omega
      have hget : c.resolvedPoints.get? (nearestScan off c.resolvedPoints 0 ⊤ 0).2 =
          some (c.resolvedPoints.get ⟨k, hk⟩) := by
        rw [hr2]; exact List.get?_eq_get hk
      have hfind : findNearestSnapPoint c off =
          { index := k, offset := (c.resolvedPoints.get ⟨k, hk⟩).offset,
            id := (c.resolvedPoints.get ⟨k, hk⟩).id } := by
        simp only [findNearestSnapPoint]
        rw [hget, hr2]
      rw [hfind]
      refine ⟨hk, rfl, rfl, fun j hj => ?_, fun j hj hjk => ?_⟩
      · have hle := (nearestScan_le off c.resolvedPoints 0 ⊤ 0).2 j hj
        rw [h1] at hle
        exact_mod_cast hle
      · have hlt := h4 j hjk
        rw [h1] at hlt
        exact_mod_cast hlt
  · have hscan : nearestScan 180
        [{ id := "snap-0", offset := 0, relative := true },
         { id := "snap-1", offset := 200, relative := true },
         { id := "snap-2", offset := 400, relative := true }] 0 ⊤ 0 =
        (((|(200 : ℚ) - 180| : ℚ) : WithTop ℚ), 1) := by
      rw [nearestScan_cons, if_pos (WithTop.coe_lt_top _),
          nearestScan_cons, if_pos (WithTop.coe_lt_coe.mpr (by norm_num [abs])),
          nearestScan_cons, if_neg (by rw [WithTop.coe_lt_coe]; norm_num [abs])]
      rfl
    simp only [findNearestSnapPoint, hscan]
    rfl

/-- Witness for C3 on the three-point calculator of the example. -/
theorem C3_findNearestSnapPoint_is_least_argmin_witness :
    (findNearestSnapPoint
        { resolvedPoints :=
            [{ id := "snap-0", offset := 0, relative := true },
             { id := "snap-1", offset := 200, relative := true },
             { id := "snap-2", offset := 400, relative := true }],
          containerSize := 400 } 180).index < 3 := by
  obtain ⟨h, -⟩ := (C3_findNearestSnapPoint_is_least_argmin
    { resolvedPoints :=
        [{ id := "snap-0", offset := 0, relative := true },
         { id := "snap-1", offset := 200, relative := true },
         { id := "snap-2", offset := 400, relative := true }],
      containerSize := 400 } 180).2.1 (by decide)
  exact h

/-- C7 (amended): `findNextSnapPoint` returns null exactly when the
velocity is not significant, the clamped step does not move, or no snap
point exists at the stepped index (the last case arises on an empty list
or an out-of-range current index); otherwise it returns the index, offset
and id of the point at the clamped stepped index, which is one index away
from the current index in the sign of the velocity whenever the current
index is an integer within bounds.  Concretely, over 3 points,
`findNextSnapPoint 0 1.5 0.5` returns index 1 and
`findNextSnapPoint 0 0.2 0.5` returns null. -/
theorem C7_findNextSnapPoint_null_iff (c : SnapPointCalculator)
    (cur v thr : ℚ) :
    (findNextSnapPoint c cur v thr = none ↔
      |v| ≤ thr ∨ nextIndex c cur v = cur ∨
        jsIndex c.resolvedPoints (nextIndex c cur v) = none) ∧
    (∀ r, findNextSnapPoint c cur v thr = some r →
      r.index = nextIndex c cur v ∧
      ∃ p, jsIndex c.resolvedPoints (nextIndex c cur v) = some p ∧
        r.offset = p.offset ∧ r.id = p.id) ∧
    (cur.den = 1 → 0 ≤ cur → cur < (c.resolvedPoints.length : ℚ) →
      ∀ r, findNextSnapPoint c cur v thr = some r →
        r.index = (if v > 0 then cur + 1 else cur - 1)) ∧
    findNextSnapPoint
      { resolvedPoints :=
          [{ id := "snap-0", offset := 0, relative := true },
           { id := "snap-1", offset := 200, relative := true },
           { id := "snap-2", offset := 400, relative := true }],
        containerSize := 400 } 0 (3 / 2) (1 / 2) =
      some { index := 1, offset := 200, id := "snap-1" } ∧
    findNextSnapPoint
      { resolvedPoints :=
          [{ id := "snap-0", offset := 0, relative := true },
           { id := "snap-1", offset := 200, relative := true },
           { id := "snap-2", offset := 400, relative := true }],
        containerSize := 400 } 0 (1 / 5) (1 / 2) = none := by
  have hsome : ∀ r, findNextSnapPoint c cur v thr = some r →
      r.index = nextIndex c cur v ∧
      ∃ p, jsIndex c.resolvedPoints (nextIndex c cur v) = some p ∧
        r.offset = p.offset ∧ r.id = p.id := by
    intro r hr
    by_cases hsig : |v| > thr
    · by_cases hnext : nextIndex c cur v = cur
      · simp [findNextSnapPoint, hsig, hnext] at hr
      · cases hj : jsIndex c.resolvedPoints (nextIndex c cur v) with
        | none => simp [findNextSnapPoint, hsig, hnext, hj] at hr
        | some p =>
          have heq : findNextSnapPoint c cur v thr =
              some { index := nextIndex c cur v, offset := p.offset, id := p.id } := by
            simp [findNextSnapPoint, hsig, hnext, hj]
          rw [heq] at hr
          injection hr with hr2
          subst hr2
          exact ⟨rfl, p, rfl, rfl, rfl⟩
    · simp [findNextSnapPoint, hsig] at hr
  refine ⟨⟨fun h => ?_, fun h => ?_⟩, hsome, fun hden h0 hlen r hr => ?_, ?_, ?_⟩
  · by_cases hsig : |v| > thr
    · by_cases hnext : nextIndex c cur v = cur
      · exact Or.inr (Or.inl hnext)
      · cases hj : jsIndex c.resolvedPoints (nextIndex c cur v) with
        | none => exact Or.inr (Or.inr rfl)
        | some p =>
          exfalso
          have : findNextSnapPoint c cur v thr =
              some { index := nextIndex c cur v, offset := p.offset, id := p.id } := by
            simp [findNextSnapPoint, hsig, hnext, hj]
          rw [this] at h
          cases h
    · exact Or.inl (not_lt.mp hsig)
  · rcases h with h | h | h
    · simp [findNextSnapPoint, not_lt.mpr h]
    · by_cases hsig : |v| > thr
      · simp [findNextSnapPoint, hsig, h]
      · simp [findNextSnapPoint, hsig]
    · by_cases hsig : |v| > thr
      · by_cases hnext : nextIndex c cur v = cur
        · simp [findNextSnapPoint, hsig, hnext]
        · simp [findNextSnapPoint, hsig, hnext, h]
      · simp [findNextSnapPoint, hsig]
  · have hnext : nextIndex c cur v ≠ cur := by
      intro heq
      have : findNextSnapPoint c cur v thr = none := by
        by_cases hsig : |v| > thr
        · simp [findNextSnapPoint, hsig, heq]
        · simp [findNextSnapPoint, hsig]
      rw [this] at hr
      cases hr
    have hidx := (hsome r hr).1
    have hcur : (cur.num : ℚ) = cur := (Rat.den_eq_one_iff cur).mp hden
    have hnum0 : 0 ≤ cur.num := Rat.num_nonneg.mpr h0
    have hlen1 : 0 < c.resolvedPoints.length := by
      by_contra hc
      have hz : c.resolvedPoints.length = 0 := by omega
      rw [hz] at hlen
      norm_num at hlen
      exact absurd (lt_of_le_of_lt h0 hlen) (lt_irrefl 0)
    have hnumlt : cur.num < (c.resolvedPoints.length : ℤ) := by
      have : (cur.num : ℚ) < ((c.resolvedPoints.length : ℤ) : ℚ) := by
        rw [hcur]; exact_mod_cast hlen
      exact_mod_cast this
    rw [hidx]
    unfold nextIndex
    by_cases hv : v > 0
    · rw [if_pos hv, if_pos hv]
      by_cases htop : cur.num = (c.resolvedPoints.length : ℤ) - 1
      · exfalso
        apply hnext
        unfold nextIndex
        rw [if_pos hv]
        have hcl : cur = (c.resolvedPoints.length : ℚ) - 1 := by
          rw [← hcur]
          rw [htop]
          push_cast
          ring
        rw [hcl]
        exact min_eq_right (by linarith)
      · have hstep : cur + 1 ≤ (c.resolvedPoints.length : ℚ) - 1 := by
          have : cur.num + 1 ≤ (c.resolvedPoints.length : ℤ) - 1 := by omega
          rw [← hcur]
          exact_mod_cast this
        exact min_eq_left hstep
    · rw [if_neg hv, if_neg hv]
      by_cases hbot : cur.num = 0
      · exfalso
        apply hnext
        unfold nextIndex
        rw [if_neg hv]
        have hc0 : cur = 0 := by rw [← hcur, hbot]; norm_num
        rw [hc0]
        norm_num
      · have hstep : (0 : ℚ) ≤ cur - 1 := by
          have h1 : 1 ≤ cur.num := by omega
          have : (1 : ℚ) ≤ cur := by rw [← hcur]; exact_mod_cast h1
          linarith
        exact max_eq_left hstep
  · have hnext : nextIndex
        { resolvedPoints :=
            [{ id := "snap-0", offset := 0, relative := true },
             { id := "snap-1", offset := 200, relative := true },
             { id := "snap-2", offset := 400, relative := true }],
          containerSize := 400 } 0 (3 / 2) = 1 := by
      norm_num [nextIndex]
    have hj : jsIndex
        ([{ id := "snap-0", offset := 0, relative := true },
          { id := "snap-1", offset := 200, relative := true },
          { id := "snap-2", offset := 400, relative := true }] :
            List SnapPointResolved) (1 : ℚ) =
        some { id := "snap-1", offset := 200, relative := true } := by
      rw [jsIndex, dif_pos]
      · rfl
      · refine ⟨by norm_num, by norm_num, ?_⟩
        norm_num
    simp only [findNextSnapPoint]
    rw [if_neg (not_not.mpr (by norm_num [abs] : |(3 / 2 : ℚ)| > 1 / 2)), hnext,
      if_neg (by norm_num : ¬ (1 : ℚ) = 0), hj]
  · simp only [findNextSnapPoint]
    rw [if_pos (by norm_num [abs] : ¬ (|(1 / 5 : ℚ)| > 1 / 2))]

/-- Witness for C7 on the three-point calculator at the in-range integer
index 0 with velocity 1.5: the returned index is one step forward. -/
theorem C7_findNextSnapPoint_null_iff_witness :
    ({ index := 1, offset := 200, id := "snap-1" } : NextResult).index =
      (if (3 / 2 : ℚ) > 0 then (0 : ℚ) + 1 else (0 : ℚ) - 1) := by
  have hthm := C7_findNextSnapPoint_null_iff
    { resolvedPoints :=
        [{ id := "snap-0", offset := 0, relative := true },
         { id := "snap-1", offset := 200, relative := true },
         { id := "snap-2", offset := 400, relative := true }],
      containerSize := 400 } 0 (3 / 2) (1 / 2)
  exact hthm.2.2.1 (by norm_num) (by norm_num) (by norm_num) _ hthm.2.2.2.1

/-- C7 counterexample: over the empty point list with current index 0 and
velocity 1.5, the code returns null although the velocity is significant
and the clamped step (to index -1) moved away from the current index, so
the claimed null-condition biconditional fails. -/
theorem C7_findNextSnapPoint_null_iff_counterexample :
    ¬ (findNextSnapPoint { resolvedPoints := [], containerSize := 400 }
          0 (3 / 2) (1 / 2) = none ↔
        |(3 / 2 : ℚ)| ≤ 1 / 2 ∨
          nextIndex { resolvedPoints := [], containerSize := 400 } 0 (3 / 2) = 0) := by
  intro h
  have hnone : findNextSnapPoint { resolvedPoints := [], containerSize := 400 }
      0 (3 / 2) (1 / 2) = none := by
    have hsig : |(3 / 2 : ℚ)| > 1 / 2 := by norm_num [abs]
    have hnext : nextIndex { resolvedPoints := [], containerSize := 400 }
        0 (3 / 2) = -1 := by
      norm_num [nextIndex]
    have hj : jsIndex ([] : List SnapPointResolved) (-1 : ℚ) = none := by
      norm_num [jsIndex]
    simp [findNextSnapPoint, hsig, hnext, hj]
  rcases h.mp hnone with h1 | h2
  · norm_num [abs] at h1
  · rw [show nextIndex { resolvedPoints := [], containerSize := 400 } 0 (3 / 2) =
        -1 from by norm_num [nextIndex]] at h2
    norm_num at h2

/-- The numeric payload of a `number | string` snap value: the bare number
itself, or the number the descriptor string parses to. -/
def SnapValue.payload : SnapValue → ℚ
  | .num n => n
  | .str s => s.parsed

/-- The numeric payload of a snap point descriptor. -/
def SnapPoint.payload : SnapPoint → ℚ
  | .num n => n
  | .str s => s.parsed
  | .obj v _ => v.payload

/-- C8 (amended): offsets resolved by `updateConfig` are non-negative
provided the container size, the viewport dimensions and every numeric
descriptor payload are non-negative; a negative descriptor (e.g. the bare
number -1) yields a negative offset, so the unconditional claim fails. -/
theorem C8_offsets_nonneg_of_nonneg_inputs (vp : Viewport) (c : SnapPointCalculator)
    (config : SnapConfigIn) (hcs : 0 ≤ config.containerSize)
    (hh : 0 ≤ vp.innerHeight) (hw : 0 ≤ vp.innerWidth)
    (hp : ∀ p ∈ config.points, 0 ≤ p.payload) :
    ∀ r ∈ (updateConfig vp c config).resolvedPoints, 0 ≤ r.offset := by
  intro r hr
  have hr2 : r ∈ resolveSnapPoints vp config.containerSize config.points := hr
  unfold resolveSnapPoints at hr2
  rw [List.mem_map] at hr2
  obtain ⟨⟨i, p⟩, hmem, heq⟩ := hr2
  have hpmem : p ∈ config.points :=
    List.get?_mem (List.mk_mem_enum_iff_get?.mp hmem)
  have hpay : 0 ≤ p.payload := hp p hpmem
  have hparse : ∀ v : SnapValue, 0 ≤ v.payload →
      0 ≤ parseSnapValue vp config.containerSize v := by
    intro v hv
    cases v with
    | num n => exact mul_nonneg hv hcs
    | str s =>
      cases s with
      | mk parsed unit =>
        cases unit with
        | px => exact hv
        | pct => exact mul_nonneg (div_nonneg hv (by norm_num)) hcs
        | vh => exact mul_nonneg (div_nonneg hv (by norm_num)) hh
        | vw => exact mul_nonneg (div_nonneg hv (by norm_num)) hw
        | other => exact hv
  cases p with
  | num n => rw [← heq]; exact hparse (.num n) hpay
  | str s => rw [← heq]; exact hparse (.str s) hpay
  | obj v id => rw [← heq]; exact hparse v hpay

/-- Witness for C8 on the list `[0.5]` over containerSize 400, whose
single resolved point has the non-negative offset 200. -/
theorem C8_offsets_nonneg_of_nonneg_inputs_witness :
    (updateConfig { innerWidth := 800, innerHeight := 600 }
        { resolvedPoints := [], containerSize := 0 }
        { points := [.num (1 / 2)], containerSize := 400,
          direction := .vertical }).resolvedPoints =
      [{ id := "snap-0", offset := 200, relative := true }] ∧
    0 ≤ ({ id := "snap-0", offset := 200, relative := true } :
      SnapPointResolved).offset := by
  have hres : (updateConfig { innerWidth := 800, innerHeight := 600 }
      { resolvedPoints := [], containerSize := 0 }
      { points := [.num (1 / 2)], containerSize := 400,
        direction := .vertical }).resolvedPoints =
      [{ id := "snap-0", offset := 200, relative := true }] := by
    norm_num [updateConfig, resolveSnapPoints, parseSnapValue, List.enum, snapId]
    rfl
  refine ⟨hres, ?_⟩
  exact C8_offsets_nonneg_of_nonneg_inputs
    { innerWidth := 800, innerHeight := 600 }
    { resolvedPoints := [], containerSize := 0 }
    { points := [.num (1 / 2)], containerSize := 400, direction := .vertical }
    (by norm_num) (by norm_num) (by norm_num)
    (fun p hp => by
      rw [List.mem_singleton.mp hp]
      norm_num [SnapPoint.payload])
    { id := "snap-0", offset := 200, relative := true }
    (by rw [hres]; exact List.mem_singleton.mpr rfl)

/-- C8 counterexample: `updateConfig` over the single bare descriptor -1
with containerSize 400 resolves to the offset -400, which is negative. -/
theorem C8_offsets_nonneg_counterexample :
    ¬ (∀ r ∈ (updateConfig { innerWidth := 800, innerHeight := 600 }
        { resolvedPoints := [], containerSize := 0 }
        { points := [.num (-1)], containerSize := 400,
          direction := .vertical }).resolvedPoints, 0 ≤ r.offset) := by
  intro h
  have hres : (updateConfig { innerWidth := 800, innerHeight := 600 }
      { resolvedPoints := [], containerSize := 0 }
      { points := [.num (-1)], containerSize := 400,
        direction := .vertical }).resolvedPoints =
      [{ id := "snap-0", offset := -400, relative := true }] := by
    norm_num [updateConfig, resolveSnapPoints, parseSnapValue, List.enum, snapId]
    rfl
  rw [hres] at h
  have := h { id := "snap-0", offset := -400, relative := true }
    (List.mem_singleton.mpr rfl)
  norm_num at this

/-- C4 (amended): every tick uses the integration step
dt = min(currentTime - lastTime, 64 ms) (converted to seconds), computes
springForce, dampingForce and acceleration as in the claim, updates
velocity and value by explicit Euler, and — unless the integrated state
falls within precision of the target, in which case the tick completes
instead and emits no update — stores the integrated values and emits the
onUpdate callback with the new value and velocity. -/
theorem C4_tick_explicit_euler (s : SpringState) (t : ℚ) :
    tickDt s t = min (t - s.lastTime) 64 / 1000 ∧
    eulerVelocity s t = s.currentVelocity +
      (-s.config.stiffness * (s.currentValue - s.targetValue) +
        -s.config.damping * s.currentVelocity) / s.config.mass * tickDt s t ∧
    eulerValue s t = s.currentValue + eulerVelocity s t * tickDt s t ∧
    (tick s t).1.lastTime = t ∧
    (¬ (|eulerValue s t - s.targetValue| < s.config.precision ∧
        |eulerVelocity s t| < s.config.precision) →
      (tick s t).1.currentValue = eulerValue s t ∧
      (tick s t).1.currentVelocity = eulerVelocity s t ∧
      (tick s t).2.update = some (eulerValue s t, eulerVelocity s t) ∧
      (tick s t).2.complete = false) := by
  refine ⟨rfl, rfl, rfl, ?_, fun h => ?_⟩
  · simp only [tick]
    split <;> rfl
  · simp only [tick]
    rw [if_neg h]
    exact ⟨rfl, rfl, rfl, rfl⟩

/-- Witness for C4 on a tick far from the target (value 0, target 10,
gentle preset, 16 ms frame). -/
theorem C4_tick_explicit_euler_witness :
    (tick (⟨0, 0, 10, gentle, some (), 0, true⟩ : SpringState) 16).2.update =
      some (eulerValue (⟨0, 0, 10, gentle, some (), 0, true⟩ : SpringState) 16,
            eulerVelocity (⟨0, 0, 10, gentle, some (), 0, true⟩ : SpringState) 16) := by
  have h := (C4_tick_explicit_euler
    (⟨0, 0, 10, gentle, some (), 0, true⟩ : SpringState) 16).2.2.2.2 (by
      norm_num [eulerValue, eulerVelocity, tickDt, gentle, abs])
  exact h.2.2.1

/-- C4 counterexample: a tick whose post-integration state already lies
within precision of the target (value at target, velocity 0) emits no
onUpdate callback at all — it completes instead — refuting the claim that
every tick emits onUpdate with the new value and velocity. -/
theorem C4_tick_explicit_euler_counterexample :
    (tick (⟨0, 0, 0, gentle, some (), 0, true⟩ : SpringState) 16).2.update = none ∧
    (tick (⟨0, 0, 0, gentle, some (), 0, true⟩ : SpringState) 16).2.complete = true := by
  have hcond : |eulerValue (⟨0, 0, 0, gentle, some (), 0, true⟩ : SpringState) 16 -
        (⟨0, 0, 0, gentle, some (), 0, true⟩ : SpringState).targetValue| <
        (⟨0, 0, 0, gentle, some (), 0, true⟩ : SpringState).config.precision ∧
      |eulerVelocity (⟨0, 0, 0, gentle, some (), 0, true⟩ : SpringState) 16| <
        (⟨0, 0, 0, gentle, some (), 0, true⟩ : SpringState).config.precision := by
    norm_num [eulerValue, eulerVelocity, tickDt, gentle]
  simp only [tick]
  rw [if_pos hcond]
  exact ⟨rfl, rfl⟩

/-- A state with the animation flag cleared ticks no more: the remaining
frame timestamps are ignored and no further events fire. -/
lemma runTicks_not_animating (s : SpringState) (h : s.isAnimating = false) :
    ∀ ts, runTicks s ts = (s, []) := by
  intro ts
  cases ts with
  | nil => rfl
  | cons t ts =>
    simp only [runTicks]
    rw [h]
    simp

/-- C2 (amended): once a tick's post-integration state has both position
error and velocity under the precision of the config, that tick sets the
value exactly to the target, sets the velocity exactly to 0, stops the
loop, and fires the completion callback exactly once (and no update);
afterwards `getValue` returns exactly the target and `getVelocity` returns
exactly 0, whatever frame timestamps remain.  (Termination itself is not
guaranteed for every config: see the counterexample with zero damping.) -/
theorem C2_completion_snaps_and_fires_once (s : SpringState) (t : ℚ)
    (ts : List ℚ) (hrun : s.isAnimating = true)
    (hx : |eulerValue s t - s.targetValue| < s.config.precision)
    (hv : |eulerVelocity s t| < s.config.precision) :
    getValue (runTicks s (t :: ts)).1 = s.targetValue ∧
    getVelocity (runTicks s (t :: ts)).1 = 0 ∧
    (runTicks s (t :: ts)).1.isAnimating = false ∧
    (runTicks s (t :: ts)).2 = [{ update := none, complete := true }] := by
  have htick : tick s t =
      ({ s with currentValue := s.targetValue, currentVelocity := 0,
                lastTime := t, isAnimating := false },
       { update := none, complete := true }) := by
    simp only [tick]
    rw [if_pos ⟨hx, hv⟩]
  have hrest := runTicks_not_animating
    { s with currentValue := s.targetValue, currentVelocity := 0,
             lastTime := t, isAnimating := false } rfl ts
  simp only [runTicks]
  rw [hrun, htick]
  simp only [if_true]
  rw [hrest]
  exact ⟨rfl, rfl, rfl, rfl⟩

/-- Witness for C2 on a quiescent spring (value at target, velocity 0)
receiving one 16 ms frame. -/
theorem C2_completion_snaps_and_fires_once_witness :
    getValue (runTicks (⟨0, 0, 0, gentle, some (), 0, true⟩ : SpringState)
      [16]).1 = 0 ∧
    (runTicks (⟨0, 0, 0, gentle, some (), 0, true⟩ : SpringState) [16]).2 =
      [{ update := none, complete := true }] := by
  have h := C2_completion_snaps_and_fires_once
    (⟨0, 0, 0, gentle, some (), 0, true⟩ : SpringState) 16 [] rfl
    (by norm_num [eulerValue, eulerVelocity, tickDt, gentle])
    (by norm_num [eulerValue, eulerVelocity, tickDt, gentle])
  exact ⟨h.1, h.2.2.2⟩

/-- The spring config of the C2 counterexample: an undamped unit spring
(stiffness 1, damping 0, mass 1, precision 1/100).  The class accepts any
`SpringConfig`, so this is a legal instance. -/
def cfgC2 : SpringConfig :=
  { stiffness := 1, damping := 0, mass := 1, precision := 1 / 100 }

/-- A spring at value 1 sent to target 0 at time 0 (`setTarget 0`). -/
def springC2 : SpringState := setTarget (mkSpring 1 cfgC2) 0 0 0

/-- Frame timestamps 16, 32, 48, ...: one frame every 16 ms. -/
def timesC2 (n : ℕ) : ℚ := 16 * ((n : ℚ) + 1)

/-- The run of the animation loop from `springC2` under the 16 ms frame
schedule: state after `n` ticks. -/
def simC2 : ℕ → SpringState
  | 0 => springC2
  | n + 1 =>
    if (simC2 n).isAnimating then (tick (simC2 n) (timesC2 n)).1 else simC2 n

/-- Discrete energy of the undamped spring: exactly conserved by the
integration step with dt = 16/1000 = 2/125. -/
def QC2 (x v : ℚ) : ℚ := x ^ 2 + v ^ 2 - 2 / 125 * x * v

/-- Loop invariant of the undamped run: the animation keeps running, the
target, config and frame clock evolve as expected, and the discrete
energy stays exactly 1, which keeps the state outside the stopping box. -/
lemma simC2_invariant (n : ℕ) :
    (simC2 n).isAnimating = true ∧ (simC2 n).targetValue = 0 ∧
    (simC2 n).config = cfgC2 ∧ (simC2 n).lastTime = 16 * (n : ℚ) ∧
    QC2 (simC2 n).currentValue (simC2 n).currentVelocity = 1 := by
  induction n with
  | zero =>
    refine ⟨rfl, rfl, rfl, by norm_num [simC2, springC2, setTarget, mkSpring], ?_⟩
    norm_num [simC2, springC2, setTarget, mkSpring, QC2]
  | succ n ih =>
    obtain ⟨hanim, htgt, hcfg, htime, hQ⟩ := ih
    have hdelta : timesC2 n - (simC2 n).lastTime = 16 := by
      rw [htime, timesC2]; ring
    have hdt : tickDt (simC2 n) (timesC2 n) = 2 / 125 := by
      rw [tickDt, hdelta]; norm_num
    have hv : eulerVelocity (simC2 n) (timesC2 n) =
        (simC2 n).currentVelocity - 2 / 125 * (simC2 n).currentValue := by
      rw [eulerVelocity, hdt, htgt, hcfg]
      simp only [cfgC2]
      ring
    have hx : eulerValue (simC2 n) (timesC2 n) =
        (simC2 n).currentValue +
          ((simC2 n).currentVelocity - 2 / 125 * (simC2 n).currentValue) *
            (2 / 125) := by
      rw [eulerValue, hv, hdt]
    have hQ2 : QC2 (eulerValue (simC2 n) (timesC2 n))
        (eulerVelocity (simC2 n) (timesC2 n)) = 1 := by
      rw [hx, hv]
      unfold QC2 at hQ ⊢
      linear_combination hQ
    have hnstop : ¬ (|eulerValue (simC2 n) (timesC2 n) -
          (simC2 n).targetValue| < (simC2 n).config.precision ∧
        |eulerVelocity (simC2 n) (timesC2 n)| < (simC2 n).config.precision) := by
      rw [htgt, hcfg]
      rintro ⟨h1, h2⟩
      have hX1 : |eulerValue (simC2 n) (timesC2 n)| < 1 / 100 := by
        have := h1
        rw [sub_zero] at this
        simpa [cfgC2] using this
      have hV1 : |eulerVelocity (simC2 n) (timesC2 n)| < 1 / 100 := by
        simpa [cfgC2] using h2
      set X := eulerValue (simC2 n) (timesC2 n)
      set V := eulerVelocity (simC2 n) (timesC2 n)
      have habs : |X * V| < 1 / 10000 := by
        rw [abs_mul]
        calc |X| * |V| < 1 / 100 * (1 / 100) :=
              mul_lt_mul'' hX1 hV1 (abs_nonneg _) (abs_nonneg _)
        _ = 1 / 10000 := by norm_num
      have hX2 : X ^ 2 < 1 / 10000 := by
        nlinarith [(abs_lt.mp hX1).1, (abs_lt.mp hX1).2]
      have hV2 : V ^ 2 < 1 / 10000 := by
        nlinarith [(abs_lt.mp hV1).1, (abs_lt.mp hV1).2]
      have hXV1 : X * V ≤ |X * V| := le_abs_self _
      have hXV2 : -|X * V| ≤ X * V := neg_abs_le _
      unfold QC2 at hQ2
      nlinarith [hQ2, hX2, hV2, habs, hXV1, hXV2]
    have hstep : simC2 (n + 1) = (tick (simC2 n) (timesC2 n)).1 := by
      simp only [simC2]
      rw [hanim]
      simp
    have htick : (tick (simC2 n) (timesC2 n)).1 =
        { simC2 n with
            currentValue := eulerValue (simC2 n) (timesC2 n)
            currentVelocity := eulerVelocity (simC2 n) (timesC2 n)
            lastTime := timesC2 n
            rafId := some () } := by
      simp only [tick]
      rw [if_neg hnstop]
    rw [hstep, htick]
    refine ⟨hanim, htgt, hcfg, ?_, hQ2⟩
    show timesC2 n = 16 * ((n + 1 : ℕ) : ℚ)
    rw [timesC2]
    push_cast
    ring

/-- C2 counterexample: with the accepted config stiffness 1, damping 0,
mass 1, precision 1/100, value 1 and `setTarget 0`, the loop never stops:
after every number of 16 ms frames the animation is still running, so the
tick loop does not terminate in finitely many ticks. -/
theorem C2_counterexample_nontermination :
    ¬ ∃ n : ℕ, (simC2 n).isAnimating = false := by
  rintro ⟨n, hn⟩
  have h := (simC2_invariant n).1
  rw [hn] at h
  cases h

end DrawerLabs
